import Mathlib

/-!
Shallow embedding of the `remix-zod` request-validation adapter (src/index.ts).

The library glues the zod schema runtime to Remix request handling.  We model:

* JavaScript runtime values that flow through the library (`Value`), including
  File objects and URLSearchParams instances;
* a zod schema as a function from a value to a parse result that is either a
  validated value, a validation failure (a thrown ZodError), or a thrown
  non-Zod exception.  This mirrors zod v3 semantics: `parseAsync` rejects on
  both failures and exceptions, while `safeParseAsync` converts validation
  failures into a tagged result object but does NOT catch exceptions thrown by
  user callbacks (e.g. inside `zod.preprocess`) - those propagate and the
  returned promise rejects;
* the promise outcome of each library entry point (`Outcome`): a resolved
  value, a thrown Remix `json` 400 response (`throwBadRequest`), or another
  thrown JavaScript error;
* the module-level mutable configuration (`badRequestMessage`,
  `customBadRequestJson`) as an explicit `Config` record threaded through.

Machine arithmetic: the byte-size converter multiplies by powers of 1024
(powers of two), which is exact for the IEEE doubles used by JavaScript over
the ranges involved, so plain `Int` models the arithmetic faithfully.
-/

namespace RemixZod

/-- Model of a JavaScript `File` object: the fields the library reads are
`name`, `type` (declared MIME type) and `size` (byte count). -/
structure FileObj where
  name : String
  type : String
  size : Int
  deriving DecidableEq, Repr

/-- Model of the JavaScript values that flow through the library: JSON-like
data, File objects, raw `URLSearchParams` instances (which `parseQuery`
hands to the schema unfolded), and - reachable through the multi-value fold's
prototype-chain lookups - host function objects (`jsFunction`) and the
`Object.prototype` object itself (`protoObj`). -/
inductive Value where
  | null
  | undefined
  | bool (b : Bool)
  | num (n : Int)
  | str (s : String)
  | file (f : FileObj)
  | arr (vs : List Value)
  | obj (fields : List (String × Value))
  | searchParams (pairs : List (String × String))
  | jsFunction (name : String)
  | protoObj

/-- Model of a thrown JavaScript error that is not the Remix 400 response. -/
inductive JsError where
  | zodError
  | invalidCharacter
  | typeError (msg : String)
  | rangeError (msg : String)
  | error (msg : String)
  deriving DecidableEq, Repr

/-- Result of running a zod schema on a value: validated output, validation
failure (ZodError), or an exception thrown by a user callback inside the
schema (zod does not catch those). -/
inductive ParseResult where
  | success (v : Value)
  | failure
  | exception (e : JsError)

/-- Model of a zod schema: a (pure, deterministic) function from an input
value to a parse result. -/
def Schema : Type := Value → ParseResult

/-- The result object returned by zod `safeParseAsync`. -/
inductive SafeResult where
  | success (data : Value)
  | failure

/-- The Remix `json(...)` response thrown by `throwBadRequest`. -/
structure BadRequestResponse where
  status : Nat
  statusText : String
  body : Value

/-- Outcome of awaiting one of the library's async entry points: a resolved
value, a thrown 400 response, or another thrown JavaScript error. -/
inductive Outcome (α : Type) where
  | ok (a : α)
  | badRequest (r : BadRequestResponse)
  | jsError (e : JsError)

/-- Promise chaining: `.then` on a resolved outcome, propagating anything
thrown earlier. -/
def Outcome.then {α β : Type} (o : Outcome α) (f : α → Outcome β) : Outcome β :=
  match o with
  | .ok a => f a
  | .badRequest r => .badRequest r
  | .jsError e => .jsError e

/-- The module-level mutable globals `badRequestMessage` and
`customBadRequestJson`, threaded explicitly. -/
structure Config where
  badRequestMessage : String
  customBadRequestJson : String → Value

/-- Default configuration: message "Bad Request", formatter the identity
function on the message string. -/
def defaultConfig : Config :=
  ⟨"Bad Request", fun m => .str m⟩

/-- Embedding of `throwBadRequest` (index.ts:179-184): throws
`json(customBadRequestJson(badRequestMessage), {status: 400, statusText:
badRequestMessage})`.  We model the thrown response value. -/
def throwBadRequest (cfg : Config) : BadRequestResponse :=
  ⟨400, cfg.badRequestMessage, cfg.customBadRequestJson cfg.badRequestMessage⟩

/-- Embedding of zod `schema.parseAsync(value)`: resolves with the validated
value, rejects with a ZodError on validation failure, rejects with the thrown
error if a user callback inside the schema threw. -/
def parseAsync (s : Schema) (v : Value) : Outcome Value :=
  match s v with
  | .success x => .ok x
  | .failure => .jsError .zodError
  | .exception e => .jsError e

/-- Embedding of zod `schema.safeParseAsync(value)`: resolves with a tagged
success/failure result; exceptions thrown by user callbacks inside the schema
are not caught and the promise rejects. -/
def safeParseAsync (s : Schema) (v : Value) : Outcome SafeResult :=
  match s v with
  | .success x => .ok (.success x)
  | .failure => .ok .failure
  | .exception e => .jsError e

/-- Embedding of the repeated with-default pattern
`schema.safeParseAsync(v).then(result => result.success ? result.data :
defaultValue)`. -/
def safeParseWithDefault (s : Schema) (v dflt : Value) : Outcome Value :=
  (safeParseAsync s v).then fun r =>
    .ok (match r with
         | .success d => d
         | .failure => dflt)

/-- Embedding of `parseOrThrow` (index.ts:200-210): `try { return await
schema.parseAsync(value) } catch { throwBadRequest() }` - the catch-all
converts both validation failures and thrown exceptions into the 400
response. -/
def parseOrThrow (cfg : Config) (s : Schema) (v : Value) : Outcome Value :=
  match s v with
  | .success x => .ok x
  | .failure => .badRequest (throwBadRequest cfg)
  | .exception _ => .badRequest (throwBadRequest cfg)

/-- Byte-size specification `{value, unit}` (index.ts:212-215).  The unit is a
plain string, as seen by untyped or cross-boundary callers; typed callers only
ever pass one of the five enumerated tags. -/
structure FileSize where
  value : Int
  unit : String
  deriving DecidableEq, Repr

/-- Embedding of `convertToBytes` (index.ts:212-235): a switch on the unit tag
scaling by powers of 1024, with a thrown `Error('Invalid file size unit.')`
on the default branch. -/
def convertToBytes (fileSize : FileSize) : Except String Int :=
  match fileSize.unit with
  | "B" => .ok fileSize.value
  | "KB" => .ok (fileSize.value * 1024)
  | "MB" => .ok (fileSize.value * 1024 * 1024)
  | "GB" => .ok (fileSize.value * 1024 * 1024 * 1024)
  | "TB" => .ok (fileSize.value * 1024 * 1024 * 1024 * 1024)
  | _ => .error "Invalid file size unit."

/-- Constraint record accepted by `zx.file` / `zx.base64File`.  The mimetype
is either a single string or a list of strings when present. -/
structure FileConstraints where
  minimumSize : Option FileSize := none
  maximumSize : Option FileSize := none
  mimetype : Option (Sum String (List String)) := none

/-- Embedding of the validation callback passed to `zod.custom` in `zx.file`
(index.ts:23-51).  JavaScript truthiness: a present-but-empty mimetype string
is falsy, so the mimetype check is skipped for it; a present array (even
empty) is truthy.  `convertToBytes` may throw, which would propagate out of
the callback, hence the `Except`. -/
def fileCheck (c : FileConstraints) (v : Value) : Except String Bool := do
  match v with
  | .file f =>
    let mimeOk : Bool :=
      match c.mimetype with
      | none => true
      | some (.inl m) => if m = "" then true else f.type = m
      | some (.inr ms) => ms.contains f.type
    if !mimeOk then return false
    let minOk : Bool ←
      match c.minimumSize with
      | none => pure true
      | some ms => do
          let b ← convertToBytes ms
          pure (decide (¬ f.size < b))
    if !minOk then return false
    match c.maximumSize with
    | none => return true
    | some ms => do
        let b ← convertToBytes ms
        return decide (¬ f.size > b)
  | _ => return false

namespace zx

/-- Embedding of the `zx.file` schema (index.ts:9-51): `zod.custom` succeeds
with the original value when the callback returns true, fails when it
returns false, and propagates a thrown exception. -/
def file (c : FileConstraints) : Schema := fun v =>
  match fileCheck c v with
  | .ok true => .success v
  | .ok false => .failure
  | .error e => .exception (.error e)

end zx

/-- Characters removed by the forgiving-base64 decoding used by `atob`
(ASCII whitespace). -/
def isB64Ws (c : Char) : Bool :=
  c = ' ' || c = '\t' || c = '\n' || c = '\x0c' || c = '\r'

/-- Value of one base64 alphabet character, none for characters outside the
alphabet (including '='). -/
def base64Val (c : Char) : Option Nat :=
  if 'A' ≤ c ∧ c ≤ 'Z' then some (c.toNat - 65)
  else if 'a' ≤ c ∧ c ≤ 'z' then some (c.toNat - 71)
  else if '0' ≤ c ∧ c ≤ '9' then some (c.toNat + 4)
  else if c = '+' then some 62
  else if c = '/' then some 63
  else none

/-- Regroup a list of 6-bit values into bytes; a trailing group of one sextet
is invalid. -/
def sextetsToBytes : List Nat → Option (List Nat)
  | [] => some []
  | [_] => none
  | [a, b] => some [a * 4 + b / 16]
  | [a, b, c] => some [a * 4 + b / 16, (b % 16) * 16 + c / 4]
  | a :: b :: c :: d :: rest => do
      let tail ← sextetsToBytes rest
      pure ((a * 4 + b / 16) :: ((b % 16) * 16 + c / 4) :: ((c % 4) * 64 + d) :: tail)

/-- Strip up to two trailing '=' padding characters. -/
def stripPad (cs : List Char) : List Char :=
  match cs.reverse with
  | '=' :: '=' :: rest => rest.reverse
  | '=' :: rest => rest.reverse
  | _ => cs

/-- Embedding of the platform `atob`: forgiving-base64 decode.  Strips ASCII
whitespace; when the length is a multiple of four removes up to two trailing
padding characters; a remaining length congruent to 1 mod 4, or any character
outside the base64 alphabet, throws (modelled as `none`). -/
def atob (chars : List Char) : Option (List Nat) := do
  let cs := chars.filter (fun c => !isB64Ws c)
  let cs := if cs.length % 4 = 0 then stripPad cs else cs
  if cs.length % 4 = 1 then none
  else
    let vals ← cs.mapM base64Val
    sextetsToBytes vals

/-- JavaScript `String.prototype.split` with a single-character separator,
over character lists. -/
def splitOnChar (sep : Char) : List Char → List (List Char)
  | [] => [[]]
  | c :: rest =>
    let r := splitOnChar sep rest
    if c = sep then [] :: r
    else
      match r with
      | [] => [[c]]
      | g :: gs => (c :: g) :: gs

/-- Embedding of the preprocessing callback of `zx.base64File`
(index.ts:99-120), in source evaluation order: a File passes through; a
non-string throws `Error('Value must be a string')`; otherwise
`atob(val.split(',')[1])` runs first (when the string has no comma the index
is `undefined`, which `atob` coerces to the string "undefined" - nine
characters, length 1 mod 4, hence a throw); then the MIME string is read as
`val.split(',')[0].split(':')[1].split(';')[0]` (a missing ':' segment makes
the `[1]` index `undefined` and the subsequent `.split` a TypeError); finally
a File named `file.<extension>` is built whose size is the decoded byte
count. -/
def base64FilePreprocess (v : Value) : Except JsError Value :=
  match v with
  | .file f => .ok (.file f)
  | .str s =>
    let parts := splitOnChar ',' s.toList
    let payload : List Char :=
      match parts.get? 1 with
      | some p => p
      | none => "undefined".toList
    match atob payload with
    | none => .error .invalidCharacter
    | some bytes =>
      match (splitOnChar ':' (parts.headD [])).get? 1 with
      | none => .error (.typeError "Cannot read properties of undefined")
      | some afterColon =>
        let mimeString := (splitOnChar ';' afterColon).headD []
        let extension : List Char :=
          match (splitOnChar '/' mimeString).get? 1 with
          | some e => e
          | none => "undefined".toList
        .ok (.file ⟨("file.".toList ++ extension).asString, mimeString.asString,
                    (bytes.length : Int)⟩)
  | _ => .error (.error "Value must be a string")

namespace zx

/-- Embedding of the `zx.base64File` schema (index.ts:85-125):
`zod.preprocess` runs the callback - whose thrown errors zod does not catch,
so they surface as exceptions - and pipes its output into `zx.file`. -/
def base64File (c : FileConstraints) : Schema := fun v =>
  match base64FilePreprocess v with
  | .error e => .exception e
  | .ok v' => zx.file c v'

end zx

/-- Model of the Remix `Request` as read by this library: the content-type
header, the results of `request.json()` and `request.formData()` (each may
reject), the query pairs of the request URL, and the cookie header. -/
structure Request where
  contentType : Option String := none
  jsonBody : Except JsError Value := .error (.error "no body")
  formPairs : Except JsError (List (String × String)) := .error (.error "no body")
  queryPairs : List (String × String) := []
  cookieHeader : Option String := none

/-- The three-way classification produced by `getBodyEncoding`. -/
inductive BodyEncoding where
  | json
  | form
  | text
  deriving DecidableEq, Repr

/-- JavaScript `String.prototype.includes`: substring containment. -/
def jsIncludes (s sub : String) : Bool :=
  s.toList.tails.any (fun t => sub.toList.isPrefixOf t)

/-- Embedding of `getBodyEncoding` (index.ts:186-198): substring containment
checks on the content-type header, json before form, defaulting to text (an
absent header makes both optional-chained checks falsy). -/
def getBodyEncoding (req : Request) : BodyEncoding :=
  match req.contentType with
  | none => .text
  | some ct =>
    if jsIncludes ct "application/json" then .json
    else if jsIncludes ct "multipart/form-data" then .form
    else .text

/-- Model of the JavaScript values stored in or readable from the object the
multi-value fold builds: string values from the pair sequence, numbers (the
`length` of an array), function members inherited from `Object.prototype` or
`Array.prototype`, the `Object.prototype` object itself (read through the
`__proto__` accessor), and arrays. -/
inductive JsVal where
  | str (s : String)
  | num (n : Nat)
  | builtin (name : String)
  | objectProto
  | arr (vs : List JsVal)

/-- Own property names of `Object.prototype`.  The `data[key] !== undefined`
test in the fold consults the prototype chain of the fresh object literal, so
all of these names read as defined even on `{}`; `__proto__` is the inherited
accessor whose read yields the object's prototype and whose assignment
replaces it. -/
def objectProtoMembers : List String :=
  ["constructor", "hasOwnProperty", "isPrototypeOf", "propertyIsEnumerable",
   "toLocaleString", "toString", "valueOf", "__proto__",
   "__defineGetter__", "__defineSetter__", "__lookupGetter__", "__lookupSetter__"]

/-- Standard function-valued members of `Array.prototype`, consulted only
after the folded object's prototype has been replaced by an array (via a
`__proto__` key). -/
def arrayProtoMembers : List String :=
  ["at", "concat", "constructor", "copyWithin", "entries", "every", "fill",
   "filter", "find", "findIndex", "findLast", "findLastIndex", "flat",
   "flatMap", "forEach", "includes", "indexOf", "join", "keys",
   "lastIndexOf", "map", "pop", "push", "reduce", "reduceRight", "reverse",
   "shift", "slice", "some", "sort", "splice", "toLocaleString", "toString",
   "unshift", "values"]

/-- The mutable object built by the multi-value fold: its own string-keyed
data properties in insertion order, and its prototype - `Object.prototype`
initially (`none`), or the array it was replaced with by an assignment to the
`__proto__` key (`some`). -/
structure FoldObj where
  own : List (String × JsVal)
  protoArr : Option (List JsVal)

/-- Lookup among the own properties (JavaScript objects preserve insertion
order). -/
def ownGet : List (String × JsVal) → String → Option JsVal
  | [], _ => none
  | (k', v) :: rest, k => if k' = k then some v else ownGet rest k

/-- Own-property assignment: update in place when the key exists, append
otherwise. -/
def ownSet : List (String × JsVal) → String → JsVal → List (String × JsVal)
  | [], k, v => [(k, v)]
  | (k', v') :: rest, k, v =>
    if k' = k then (k, v) :: rest else (k', v') :: ownSet rest k v

/-- Array element lookup by string key: hits an element exactly when the key
is the canonical decimal form of an index below the length. -/
def arrayIndexGet (a : List JsVal) (k : String) : Option JsVal :=
  match k.toNat? with
  | some i =>
    if hi : i < a.length then
      (if toString i = k then some (a.get ⟨i, hi⟩) else none)
    else none
  | none => none

/-- Property read through the array the prototype was replaced with: the
array's own properties (elements and `length`) first, then the function
members inherited from `Array.prototype` and `Object.prototype`. -/
def arrayChainGet (a : List JsVal) (k : String) : Option JsVal :=
  if k = "length" then some (.num a.length)
  else
    match arrayIndexGet a k with
    | some v => some v
    | none =>
      if k ∈ arrayProtoMembers ∨ k ∈ objectProtoMembers then some (.builtin k)
      else none

/-- The lookup `data[key]` performed by the fold, prototype chain included:
own properties first, then the inherited `__proto__` accessor (which yields
the current prototype and is therefore never undefined), then members
inherited through the current prototype. -/
def getProp (data : FoldObj) (k : String) : Option JsVal :=
  match ownGet data.own k with
  | some v => some v
  | none =>
    if k = "__proto__" then
      some (match data.protoArr with
            | none => .objectProto
            | some a => .arr a)
    else
      match data.protoArr with
      | none => if k ∈ objectProtoMembers then some (.builtin k) else none
      | some a => arrayChainGet a k

/-- The assignment `data[key] = v`: an assignment to the `__proto__` key
triggers the inherited setter - an array value replaces the object's
prototype and a primitive string is silently ignored (the fold assigns
nothing but strings and freshly built arrays, so the other value forms never
reach the setter and are modelled as ignored too); any other key creates or
updates an own data property. -/
def setProp (data : FoldObj) (k : String) (v : JsVal) : FoldObj :=
  if k = "__proto__" then
    match v with
    | .arr vs => ⟨data.own, some vs⟩
    | _ => data
  else
    ⟨ownSet data.own k v, data.protoArr⟩

/-- The call `data[key].push(v)`: appends in place to the array the lookup
yields - an own array property, or the array the prototype was replaced with
(read through `__proto__`).  The fold calls it only right after ensuring the
lookup yields an array, so the remaining branches are unreachable from the
fold and leave the object unchanged. -/
def pushProp (data : FoldObj) (k : String) (v : JsVal) : FoldObj :=
  match ownGet data.own k with
  | some (.arr ws) => ⟨ownSet data.own k (.arr (ws ++ [v])), data.protoArr⟩
  | some _ => data
  | none =>
    if k = "__proto__" then
      match data.protoArr with
      | some a => ⟨data.own, some (a ++ [v])⟩
      | none => data
    else data

/-- Body of the `forEach` callback shared verbatim by `formToObject`,
`searchParamsToObject` and `headersToObject` (index.ts:258-269, 352-363,
404-415), prototype chain included: a key whose lookup is undefined gets the
scalar value assigned; otherwise a non-array lookup result is first boxed
into a one-element array (`data[key] = [data[key]]`) and the value is then
pushed onto the array the repeated lookup now yields. -/
def foldStep (data : FoldObj) (kv : String × String) : FoldObj :=
  match getProp data kv.1 with
  | none => setProp data kv.1 (.str kv.2)
  | some old =>
    let boxed :=
      match old with
      | .arr _ => data
      | _ => setProp data kv.1 (.arr [old])
    pushProp boxed kv.1 (.str kv.2)

/-- Embedding of `formToObject` (index.ts:255-272): fold the ordered
(key, value) pairs of the form data into the multi-value mapping, starting
from a fresh object literal. -/
def formToObject (form : List (String × String)) : FoldObj :=
  form.foldl foldStep ⟨[], none⟩

/-- Embedding of `searchParamsToObject` (index.ts:349-366); its body is
identical to `formToObject`. -/
def searchParamsToObject (search : List (String × String)) : FoldObj :=
  search.foldl foldStep ⟨[], none⟩

/-- Embedding of `headersToObject` (index.ts:401-418); its body is identical
to `formToObject`. -/
def headersToObject (headers : List (String × String)) : FoldObj :=
  headers.foldl foldStep ⟨[], none⟩

/-- Conversion of a folded value to the schema-facing `Value`. -/
def JsVal.toValue : JsVal → Value
  | .str s => .str s
  | .num n => .num (Int.ofNat n)
  | .builtin name => .jsFunction name
  | .objectProto => .protoObj
  | .arr vs => .arr (vs.attach.map (fun x => x.1.toValue))
decreasing_by
  have hlt := List.sizeOf_lt_of_mem x.2
  simp only [JsVal.arr.sizeOf_spec]
  omega

/-- Conversion of the folded object to the JavaScript value handed to the
schema: its own enumerable data properties. -/
def foldedToValue (data : FoldObj) : Value :=
  .obj (data.own.map (fun p => (p.1, p.2.toValue)))

/-- Embedding of `parseJson` (index.ts:237-241): await `request.json()`, then
validate with the throwing shape. -/
def parseJson (cfg : Config) (req : Request) (schema : Schema) : Outcome Value :=
  match req.jsonBody with
  | .error e => .jsError e
  | .ok body => parseOrThrow cfg schema body

/-- Embedding of `parseJsonSafe` (index.ts:243-247): await `request.json()`,
then `safeParseAsync`. -/
def parseJsonSafe (req : Request) (schema : Schema) : Outcome SafeResult :=
  match req.jsonBody with
  | .error e => .jsError e
  | .ok body => safeParseAsync schema body

/-- Embedding of `parseJsonWithDefault` (index.ts:249-253). -/
def parseJsonWithDefault (req : Request) (schema : Schema) (dflt : Value) : Outcome Value :=
  match req.jsonBody with
  | .error e => .jsError e
  | .ok body => safeParseWithDefault schema body dflt

/-- Embedding of `parseForm` (index.ts:274-279): await `request.formData()`,
fold it, validate with the throwing shape. -/
def parseForm (cfg : Config) (req : Request) (schema : Schema) : Outcome Value :=
  match req.formPairs with
  | .error e => .jsError e
  | .ok pairs => parseOrThrow cfg schema (foldedToValue (formToObject pairs))

/-- Embedding of `parseFormSafe` (index.ts:281-286). -/
def parseFormSafe (req : Request) (schema : Schema) : Outcome SafeResult :=
  match req.formPairs with
  | .error e => .jsError e
  | .ok pairs => safeParseAsync schema (foldedToValue (formToObject pairs))

/-- Embedding of `parseFormWithDefault` (index.ts:288-293). -/
def parseFormWithDefault (req : Request) (schema : Schema) (dflt : Value) : Outcome Value :=
  match req.formPairs with
  | .error e => .jsError e
  | .ok pairs => safeParseWithDefault schema (foldedToValue (formToObject pairs)) dflt

/-- Embedding of `parseBody` (index.ts:295-307): dispatch on the detected
encoding; an unrecognized content-type calls `throwBadRequest()`. -/
def parseBody (cfg : Config) (req : Request) (schema : Schema) : Outcome Value :=
  match getBodyEncoding req with
  | .json => parseJson cfg req schema
  | .form => parseForm cfg req schema
  | .text => .badRequest (throwBadRequest cfg)

/-- Embedding of `parseBodySafe` (index.ts:309-321): the text branch calls
`throwBadRequest()` just like the throwing shape. -/
def parseBodySafe (cfg : Config) (req : Request) (schema : Schema) : Outcome SafeResult :=
  match getBodyEncoding req with
  | .json => parseJsonSafe req schema
  | .form => parseFormSafe req schema
  | .text => .badRequest (throwBadRequest cfg)

/-- Embedding of `parseBodyWithDefault` (index.ts:323-335): the text branch
calls `throwBadRequest()` instead of returning the default. -/
def parseBodyWithDefault (cfg : Config) (req : Request) (schema : Schema) (dflt : Value) :
    Outcome Value :=
  match getBodyEncoding req with
  | .json => parseJsonWithDefault req schema dflt
  | .form => parseFormWithDefault req schema dflt
  | .text => .badRequest (throwBadRequest cfg)

/-- Embedding of `parseParams` (index.ts:337-339): validate the path-parameter
mapping with the throwing shape. -/
def parseParams (cfg : Config) (params : Value) (schema : Schema) : Outcome Value :=
  parseOrThrow cfg schema params

/-- Input accepted by the `parseQuery` family: either a raw `URLSearchParams`
instance or a `Request`. -/
inductive QueryInput where
  | searchParams (pairs : List (String × String))
  | request (req : Request)

/-- Embedding of `parseQuery` (index.ts:368-377): a `URLSearchParams` argument
is handed to the schema as-is; a `Request` has its query pairs folded
first. -/
def parseQuery (cfg : Config) (input : QueryInput) (schema : Schema) : Outcome Value :=
  match input with
  | .searchParams sp => parseOrThrow cfg schema (.searchParams sp)
  | .request req =>
      parseOrThrow cfg schema (foldedToValue (searchParamsToObject req.queryPairs))

/-- Embedding of `parseQuerySafe` (index.ts:379-388). -/
def parseQuerySafe (input : QueryInput) (schema : Schema) : Outcome SafeResult :=
  match input with
  | .searchParams sp => safeParseAsync schema (.searchParams sp)
  | .request req =>
      safeParseAsync schema (foldedToValue (searchParamsToObject req.queryPairs))

/-- Embedding of `parseQueryWithDefault` (index.ts:390-399). -/
def parseQueryWithDefault (input : QueryInput) (schema : Schema) (dflt : Value) : Outcome Value :=
  match input with
  | .searchParams sp => safeParseWithDefault schema (.searchParams sp) dflt
  | .request req =>
      safeParseWithDefault schema (foldedToValue (searchParamsToObject req.queryPairs)) dflt

/-- Embedding of `parseHeaders` (index.ts:420-422): fold the header pairs,
validate with the throwing shape. -/
def parseHeaders (cfg : Config) (headers : List (String × String)) (schema : Schema) :
    Outcome Value :=
  parseOrThrow cfg schema (foldedToValue (headersToObject headers))

/-- The Remix action argument object as read by `zodAction`. -/
structure ActionArgs where
  request : Request
  params : Value

/-- The argument object handed to the wrapped action: the original arguments
spread together with the two validated values (index.ts:472-476). -/
structure AugmentedActionArgs where
  args : ActionArgs
  parsedParams : Value
  parsedBody : Value

/-- Embedding of `zod.unknown()`, the default schema for absent `params` /
`body` options: accepts any value unchanged. -/
def zodUnknown : Schema := fun v => .success v

/-- Embedding of `zodAction` (index.ts:464-478): the returned handler awaits
`parseParams` then `parseBody` (object-literal evaluation order) and only
then invokes the wrapped action with the augmented argument object; anything
thrown by either validation propagates without invoking the action. -/
def zodAction (cfg : Config) (paramsSchema bodySchema : Schema)
    (action : AugmentedActionArgs → Outcome Value) (args : ActionArgs) : Outcome Value :=
  (parseParams cfg args.params paramsSchema).then fun pv =>
    (parseBody cfg args.request bodySchema).then fun bv =>
      action ⟨args, pv, bv⟩

/-- Argument accepted by the schema-wrapped cookie's parse methods: a Request,
a Headers object (modelled by its cookie header lookup result), or a raw
cookie-header string or null. -/
inductive CookieInput where
  | request (req : Request)
  | headers (cookieHeader : Option String)
  | header (s : Option String)

/-- Cookie-header value extracted by each branch of the cookie parse methods:
`request.headers.get('cookie')`, `headers.get('cookie')`, or the raw argument
itself. -/
def cookieHeaderOf : CookieInput → Option String
  | .request req => req.cookieHeader
  | .headers h => h
  | .header s => s

/-- The engine error raised when the call stack is exhausted. -/
def stackOverflowError : JsError := .rangeError "Maximum call stack size exceeded"

/-- Embedding of the `parse` method installed by `createZodCookie`
(index.ts:480-508).  `Object.assign(cookie, {parse(...), ...})` overwrites
`cookie.parse` on the very object the new methods close over, so the call
`cookie.parse(headers)` in each present-header branch (index.ts:490, 500,
507) invokes this same wrapper again with the header string - re-entering
the raw-string branch with the same non-empty string, synchronously (an
async function runs up to its first await, and the recursive call is made
while evaluating the argument of `schema.parseAsync`).  The underlying Remix
codec is unreachable from `parse` altogether.  The `fuel` parameter is the
remaining call-stack budget; exhausting it models the engine's RangeError
(maximum call stack size exceeded), which the model propagates as a thrown
error, abstracting from the rejected-promise recovery of the intermediate
async frames - under which, likewise, no decoded cookie mapping ever reaches
the schema.  The falsiness test `if (!headers)` sends both a missing and an
empty-string header to validation of the empty object, the only terminating
path. -/
def zodCookieParse (schema : Schema) : Nat → CookieInput → Outcome Value
  | 0, _ => .jsError stackOverflowError
  | fuel + 1, .request req =>
    match req.cookieHeader with
    | none => parseAsync schema (.obj [])
    | some h =>
      if h = "" then parseAsync schema (.obj [])
      else zodCookieParse schema fuel (.header (some h))
  | fuel + 1, .headers hdr =>
    match hdr with
    | none => parseAsync schema (.obj [])
    | some h =>
      if h = "" then parseAsync schema (.obj [])
      else zodCookieParse schema fuel (.header (some h))
  | fuel + 1, .header s =>
    match s with
    | none => parseAsync schema (.obj [])
    | some h =>
      if h = "" then parseAsync schema (.obj [])
      else zodCookieParse schema fuel (.header (some h))

end RemixZod


namespace RemixZod

/-! Helper theory for the multi-value fold. -/

/-- Values supplied for key `k` in the pair sequence, in source order. -/
def valuesOf {α : Type} (k : String) (pairs : List (String × α)) : List α :=
  (pairs.filter (fun p => decide (p.1 = k))).map Prod.snd

/-- Folded own-property value corresponding to a given occurrence history of
a key that never collides with the prototype chain: absent, scalar string,
or ordered array of two or more strings. -/
def entryOfStr : List String → Option JsVal
  | [] => none
  | [v] => some (.str v)
  | v :: w :: vs => some (.arr ((v :: w :: vs).map JsVal.str))

/-- Net effect of one fold step on the own properties for a key that does not
collide with the prototype chain: the two-phase box-then-push of the source
collapses to a single own-property update. -/
def plainFoldStep (own : List (String × JsVal)) (k v : String) : List (String × JsVal) :=
  match ownGet own k with
  | none => ownSet own k (.str v)
  | some (.arr ws) => ownSet own k (.arr (ws ++ [.str v]))
  | some old => ownSet own k (.arr [old, .str v])

/-! Concrete fixtures used by witness and counterexample theorems. -/

/-- Placeholder for an unread request body. -/
def noBody : Except JsError Value := .error (.error "no body")

/-- Placeholder for unread form data. -/
def noForm : Except JsError (List (String × String)) := .error (.error "no body")

/-- Request with a plain-text content type. -/
def reqTextPlain : Request := ⟨some "text/plain", noBody, noForm, [], none⟩

/-- Request with a JSON content type carrying a charset parameter. -/
def reqJsonCharset : Request := ⟨some "application/json; charset=utf-8", noBody, noForm, [], none⟩

/-- Request with a multipart content type carrying a boundary parameter. -/
def reqFormBoundary : Request := ⟨some "multipart/form-data; boundary=xyz", noBody, noForm, [], none⟩

/-- Request with no content-type header. -/
def reqNoContentType : Request := ⟨none, noBody, noForm, [], none⟩

/-- Request with JSON body `{"name":"a"}`. -/
def reqJsonNameA : Request :=
  ⟨some "application/json", .ok (.obj [("name", .str "a")]), noForm, [], none⟩

/-- Request with JSON body `{"name":5}`. -/
def reqJsonName5 : Request :=
  ⟨some "application/json", .ok (.obj [("name", .num 5)]), noForm, [], none⟩

/-- Concrete schema accepting exactly objects of the shape `{name: <string>}`
and returning them unchanged; rejects everything else. -/
def nameStringSchema : Schema := fun v =>
  match v with
  | .obj [("name", .str s)] => .success (.obj [("name", .str s)])
  | _ => .failure

/-- Concrete always-failing schema. -/
def alwaysFail : Schema := fun _ => .failure

/-- Concrete action handler that returns its validated body. -/
def echoBodyAction : AugmentedActionArgs → Outcome Value := fun a => .ok a.parsedBody

theorem ownGet_ownSet_self (d : List (String × JsVal)) (k : String) (v : JsVal) :
    ownGet (ownSet d k v) k = some v := by
  induction d with
  | nil => simp [ownSet, ownGet]
  | cons p rest ih =>
    obtain ⟨k', v'⟩ := p
    by_cases h : k' = k <;> simp [ownSet, ownGet, h, ih]

theorem ownGet_ownSet_ne (d : List (String × JsVal)) (k q : String) (v : JsVal)
    (hq : q ≠ k) : ownGet (ownSet d k v) q = ownGet d q := by
  induction d with
  | nil => simp [ownSet, ownGet, Ne.symm hq]
  | cons p rest ih =>
    obtain ⟨k', v'⟩ := p
    by_cases h : k' = k
    · subst h
      simp [ownSet, ownGet, Ne.symm hq]
    · simp [ownSet, ownGet, h, ih]

theorem ownSet_ownSet (d : List (String × JsVal)) (k : String) (v w : JsVal) :
    ownSet (ownSet d k v) k w = ownSet d k w := by
  induction d with
  | nil => simp [ownSet]
  | cons p rest ih =>
    obtain ⟨k', v'⟩ := p
    by_cases h : k' = k <;> simp [ownSet, h, ih]

theorem getProp_plain (own : List (String × JsVal)) (k : String)
    (hk : k ∉ objectProtoMembers) :
    getProp ⟨own, none⟩ k = ownGet own k := by
  have hp : k ≠ "__proto__" := by
    intro h
    exact hk (by rw [h]; decide)
  cases hg : ownGet own k with
  | some v => simp [getProp, hg]
  | none => simp [getProp, hg, hp, hk]

/-- On a key that does not collide with the prototype chain, one step of the
fold on a not-yet-polluted object acts as the plain own-property update and
leaves the prototype untouched. -/
theorem foldStep_plain (own : List (String × JsVal)) (k v : String)
    (hk : k ∉ objectProtoMembers) :
    foldStep ⟨own, none⟩ (k, v) = ⟨plainFoldStep own k v, none⟩ := by
  have hp : k ≠ "__proto__" := by
    intro h
    exact hk (by rw [h]; decide)
  unfold foldStep plainFoldStep
  rw [getProp_plain own k hk]
  cases hg : ownGet own k with
  | none => simp [hg, setProp, hp]
  | some old =>
    cases old with
    | arr ws => simp [hg, pushProp, setProp, hp]
    | str s => simp [hg, pushProp, setProp, hp, ownGet_ownSet_self, ownSet_ownSet]
    | num n => simp [hg, pushProp, setProp, hp, ownGet_ownSet_self, ownSet_ownSet]
    | builtin name => simp [hg, pushProp, setProp, hp, ownGet_ownSet_self, ownSet_ownSet]
    | objectProto => simp [hg, pushProp, setProp, hp, ownGet_ownSet_self, ownSet_ownSet]

theorem ownGet_plainFoldStep_self (own : List (String × JsVal)) (k v : String)
    (vs : List String) (h : ownGet own k = entryOfStr vs) :
    ownGet (plainFoldStep own k v) k = entryOfStr (vs ++ [v]) := by
  match vs with
  | [] =>
    simp only [entryOfStr] at h
    simp [plainFoldStep, h, ownGet_ownSet_self, entryOfStr]
  | [w] =>
    simp only [entryOfStr] at h
    simp [plainFoldStep, h, ownGet_ownSet_self, entryOfStr]
  | w :: x :: rest =>
    simp only [entryOfStr] at h
    simp [plainFoldStep, h, ownGet_ownSet_self, entryOfStr]

theorem ownGet_plainFoldStep_ne (own : List (String × JsVal)) (k q v : String)
    (hq : q ≠ k) : ownGet (plainFoldStep own k v) q = ownGet own q := by
  unfold plainFoldStep
  cases hg : ownGet own k with
  | none => simpa using ownGet_ownSet_ne own k q _ hq
  | some old =>
    cases old <;> simpa using ownGet_ownSet_ne own k q _ hq

theorem ownGet_foldl_plainFoldStep (pairs : List (String × String)) :
    ∀ (own : List (String × JsVal)) (hist : String → List String),
      (∀ k, ownGet own k = entryOfStr (hist k)) →
      ∀ k, ownGet (pairs.foldl (fun o p => plainFoldStep o p.1 p.2) own) k
        = entryOfStr (hist k ++ valuesOf k pairs) := by
  induction pairs with
  | nil =>
    intro own hist hd k
    simpa [valuesOf] using hd k
  | cons p rest ih =>
    intro own hist hd k
    obtain ⟨k₀, v₀⟩ := p
    have hstep : ∀ q, ownGet (plainFoldStep own k₀ v₀) q
        = entryOfStr (hist q ++ if q = k₀ then [v₀] else []) := by
      intro q
      by_cases hq : q = k₀
      · subst hq
        simpa using ownGet_plainFoldStep_self own q v₀ (hist q) (hd q)
      · rw [if_neg hq, List.append_nil, ← hd q]
        exact ownGet_plainFoldStep_ne own k₀ q v₀ hq
    have hmain := ih (plainFoldStep own k₀ v₀)
      (fun q => hist q ++ if q = k₀ then [v₀] else []) hstep k
    rw [List.foldl_cons, hmain]
    by_cases hk : k₀ = k
    · subst hk
      simp [valuesOf, List.filter_cons]
    · simp [valuesOf, List.filter_cons, hk, Ne.symm hk]

/-- On a pair sequence none of whose keys collides with the prototype chain,
the fold is the plain own-property fold and the prototype survives
untouched. -/
theorem formToObject_plain (pairs : List (String × String))
    (hkeys : ∀ p ∈ pairs, p.1 ∉ objectProtoMembers) :
    formToObject pairs
      = ⟨pairs.foldl (fun o p => plainFoldStep o p.1 p.2) [], none⟩ := by
  suffices hgen : ∀ (own : List (String × JsVal)),
      pairs.foldl foldStep ⟨own, none⟩
        = ⟨pairs.foldl (fun o p => plainFoldStep o p.1 p.2) own, none⟩ from hgen []
  induction pairs with
  | nil => intro own; rfl
  | cons p rest ih =>
    intro own
    obtain ⟨k₀, v₀⟩ := p
    rw [List.foldl_cons, List.foldl_cons,
      foldStep_plain own k₀ v₀ (hkeys (k₀, v₀) (by simp))]
    exact ih (fun q hq => hkeys q (by simp [hq])) _

theorem key_of_valuesOf_ne_nil (k : String) (pairs : List (String × String))
    (h : valuesOf k pairs ≠ []) : ∃ p ∈ pairs, p.1 = k := by
  by_contra hc
  push_neg at hc
  apply h
  unfold valuesOf
  rw [List.filter_eq_nil_iff.mpr (fun p hp => by simpa using hc p hp), List.map_nil]

/-- Bridge between the executable substring test modelling
`String.prototype.includes` and the library notion of a list infix. -/
theorem jsIncludes_iff (s sub : String) :
    jsIncludes s sub = true ↔ sub.toList <:+: s.toList := by
  unfold jsIncludes
  rw [List.any_eq_true]
  constructor
  · rintro ⟨t, ht, hp⟩
    rw [List.mem_tails] at ht
    rw [List.isPrefixOf_iff_prefix] at hp
    exact List.infix_iff_prefix_suffix.mpr ⟨t, hp, ht⟩
  · intro h
    obtain ⟨t, hp, ht⟩ := List.infix_iff_prefix_suffix.mp h
    exact ⟨t, (List.mem_tails _ _).mpr ht, List.isPrefixOf_iff_prefix.mpr hp⟩

/-- Counterexample to claim C5 as stated: the key "toString" occurs exactly
once in the single-pair sequence, yet the fold does not map it to its scalar
value - the `data[key] !== undefined` test finds the function inherited from
Object.prototype on the fresh object literal, so the single occurrence folds
to the two-element array [inherited toString, "x"].  A pair with key
"__proto__" likewise hits the inherited accessor, so its value ends up in
the object's replaced prototype rather than in an own property. -/
theorem multiValueFold_toString_cex :
    valuesOf "toString" [("toString", "x")] = ["x"]
    ∧ getProp (formToObject [("toString", "x")]) "toString"
      = some (.arr [.builtin "toString", .str "x"])
    ∧ getProp (formToObject [("toString", "x")]) "toString" ≠ some (.str "x")
    ∧ formToObject [("__proto__", "x")] = ⟨[], some [.objectProto, .str "x"]⟩ := by
  refine ⟨rfl, rfl, ?_, rfl⟩
  intro h
  rw [show getProp (formToObject [("toString", "x")]) "toString"
      = some (.arr [.builtin "toString", .str "x"]) from rfl] at h
  injection h with h'
  exact JsVal.noConfusion h'

/-- Claim C5 (amended): for every ordered (key, value) sequence none of whose
keys is a property name of Object.prototype (constructor, toString, valueOf,
hasOwnProperty, proto accessor, ...), the multi-value fold (formToObject,
searchParamsToObject, headersToObject) maps a key occurring exactly once to
its scalar value and a key occurring n > 1 times to the ordered length-n
list of its values in source occurrence order, with no deduplication; in
particular [("a","1"),("b","2"),("a","3")] folds to a = ["1","3"], b = "2".
Keys that do collide with Object.prototype see the inherited member as the
already-present value (see the counterexample). -/
theorem multiValueFold_plain_scalar_or_ordered_list (pairs : List (String × String))
    (k : String) (hkeys : ∀ p ∈ pairs, p.1 ∉ objectProtoMembers) :
    (∀ v, valuesOf k pairs = [v] → getProp (formToObject pairs) k = some (.str v))
    ∧ (∀ vs, valuesOf k pairs = vs → 2 ≤ vs.length →
        getProp (formToObject pairs) k = some (.arr (vs.map .str)))
    ∧ searchParamsToObject pairs = formToObject pairs
    ∧ headersToObject pairs = formToObject pairs
    ∧ getProp (formToObject [("a", "1"), ("b", "2"), ("a", "3")]) "a"
      = some (.arr [.str "1", .str "3"])
    ∧ getProp (formToObject [("a", "1"), ("b", "2"), ("a", "3")]) "b" = some (.str "2") := by
  have hmain : ownGet (pairs.foldl (fun o p => plainFoldStep o p.1 p.2) []) k
      = entryOfStr (valuesOf k pairs) := by
    simpa using ownGet_foldl_plainFoldStep pairs [] (fun _ => []) (fun _ => rfl) k
  have hplain : ∀ u : List String, valuesOf k pairs = u → u ≠ [] →
      getProp (formToObject pairs) k = entryOfStr u := by
    intro u hu hne
    have hkmem : k ∉ objectProtoMembers := by
      obtain ⟨p, hp, hpk⟩ := key_of_valuesOf_ne_nil k pairs (by rw [hu]; exact hne)
      exact hpk ▸ hkeys p hp
    rw [formToObject_plain pairs hkeys, getProp_plain _ _ hkmem, hmain, hu]
  refine ⟨?_, ?_, rfl, rfl, rfl, rfl⟩
  · intro v hv
    rw [hplain [v] hv (by simp)]
    rfl
  · intro vs hvs hlen
    have hne : vs ≠ [] := by
      intro hnil
      rw [hnil] at hlen
      norm_num at hlen
    rw [hplain vs hvs hne]
    match vs, hlen with
    | v :: w :: rest, _ => rfl

/-- Witness for amended C5: the fold of the example sequence, read off
through the claim theorem. -/
theorem multiValueFold_plain_scalar_or_ordered_list_witness :
    getProp (formToObject [("a", "1"), ("b", "2"), ("a", "3")]) "a"
      = some (.arr [.str "1", .str "3"])
    ∧ getProp (formToObject [("a", "1"), ("b", "2"), ("a", "3")]) "b" = some (.str "2") :=
  ⟨(multiValueFold_plain_scalar_or_ordered_list [("a", "1"), ("b", "2"), ("a", "3")] "a"
      (by decide)).2.1 ["1", "3"] rfl (by norm_num),
   (multiValueFold_plain_scalar_or_ordered_list [("a", "1"), ("b", "2"), ("a", "3")] "b"
      (by decide)).1 "2" rfl⟩

/-- Claim C6: the body-encoding detector classifies a content-type header as
json when it contains the substring "application/json", as form when it does
not contain that but contains "multipart/form-data", and as text otherwise,
including an absent header; containment is substring containment (the first
conjunct ties the executable test to the list-infix relation), so parameters
such as a charset do not disturb classification. -/
theorem getBodyEncoding_classification (req : Request) :
    (∀ s sub : String, jsIncludes s sub = true ↔ sub.toList <:+: s.toList)
    ∧ (req.contentType = none → getBodyEncoding req = .text)
    ∧ (∀ ct, req.contentType = some ct →
        (jsIncludes ct "application/json" = true → getBodyEncoding req = .json)
        ∧ (jsIncludes ct "application/json" = false →
            jsIncludes ct "multipart/form-data" = true → getBodyEncoding req = .form)
        ∧ (jsIncludes ct "application/json" = false →
            jsIncludes ct "multipart/form-data" = false → getBodyEncoding req = .text)) := by
  refine ⟨jsIncludes_iff, ?_, ?_⟩
  · intro h
    simp [getBodyEncoding, h]
  · intro ct hct
    refine ⟨?_, ?_, ?_⟩
    · intro h1
      simp [getBodyEncoding, hct, h1]
    · intro h1 h2
      simp [getBodyEncoding, hct, h1, h2]
    · intro h1 h2
      simp [getBodyEncoding, hct, h1, h2]

/-- Witness for C6 at the three example headers of the spec plus the absent
header. -/
theorem getBodyEncoding_classification_witness :
    getBodyEncoding reqJsonCharset = .json
    ∧ getBodyEncoding reqFormBoundary = .form
    ∧ getBodyEncoding reqTextPlain = .text
    ∧ getBodyEncoding reqNoContentType = .text :=
  ⟨((getBodyEncoding_classification reqJsonCharset).2.2
      "application/json; charset=utf-8" rfl).1 rfl,
   ((getBodyEncoding_classification reqFormBoundary).2.2
      "multipart/form-data; boundary=xyz" rfl).2.1 rfl rfl,
   ((getBodyEncoding_classification reqTextPlain).2.2
      "text/plain" rfl).2.2 rfl rfl,
   (getBodyEncoding_classification reqNoContentType).2.1 rfl⟩


/-- Counterexample to claim C1 as stated: on a text-classified request the
safe-shape unified body parser throws the 400 response instead of returning a
failure-tagged outcome, and the with-default parser throws instead of
returning the caller-supplied default. -/
theorem parseBodySafe_text_throws_cex :
    parseBodySafe defaultConfig reqTextPlain alwaysFail
      = .badRequest (throwBadRequest defaultConfig)
    ∧ parseBodySafe defaultConfig reqTextPlain alwaysFail ≠ .ok .failure
    ∧ parseBodyWithDefault defaultConfig reqTextPlain alwaysFail (.str "dflt")
      = .badRequest (throwBadRequest defaultConfig)
    ∧ parseBodyWithDefault defaultConfig reqTextPlain alwaysFail (.str "dflt")
      ≠ .ok (.str "dflt") := by
  refine ⟨rfl, ?_, rfl, ?_⟩ <;> intro h <;> exact Outcome.noConfusion h

/-- Claim C1 (amended): for every request whose content-type classifies as
text, all three unified body parsers raise the BadRequest condition - in
particular parseBodySafe and parseBodyWithDefault throw it rather than
returning a failure-tagged outcome or the caller-supplied default. -/
theorem parseBody_text_always_throws (cfg : Config) (req : Request) (schema : Schema)
    (dflt : Value) (h : getBodyEncoding req = .text) :
    parseBody cfg req schema = .badRequest (throwBadRequest cfg)
    ∧ parseBodySafe cfg req schema = .badRequest (throwBadRequest cfg)
    ∧ parseBodyWithDefault cfg req schema dflt = .badRequest (throwBadRequest cfg) := by
  refine ⟨?_, ?_, ?_⟩ <;> simp [parseBody, parseBodySafe, parseBodyWithDefault, h]

/-- Witness for amended C1 at the text/plain request. -/
theorem parseBody_text_always_throws_witness :
    parseBodySafe defaultConfig reqTextPlain zodUnknown
      = .badRequest (throwBadRequest defaultConfig) :=
  (parseBody_text_always_throws defaultConfig reqTextPlain zodUnknown .null rfl).2.1

theorem zodCookieParse_header_overflow (schema : Schema) (h : String) (hne : h ≠ "") :
    ∀ fuel, zodCookieParse schema fuel (.header (some h)) = .jsError stackOverflowError := by
  intro fuel
  induction fuel with
  | zero => rfl
  | succ n ih =>
    simp only [zodCookieParse, if_neg hne]
    exact ih

/-- Claim C2 (code bug): the wrapped cookie's parse never decodes a present
non-empty header with the underlying codec, because `Object.assign`
overwrote `cookie.parse` with the wrapper itself.  Every such input makes
the wrapper re-enter itself with the same header string (first conjunct:
the self-recursion equation, for all three input forms), so the call burns
the entire call-stack budget and ends in the engine's stack-overflow error
for every budget (second conjunct) - the schema never receives a decoded
mapping.  Only the missing-header path behaves as the claim says, validating
the empty object (third conjunct). -/
theorem zodCookie_parse_self_recursion (schema : Schema) :
    (∀ input h, cookieHeaderOf input = some h → h ≠ "" →
        (∀ fuel, zodCookieParse schema (fuel + 1) input
          = zodCookieParse schema fuel (.header (some h)))
        ∧ (∀ fuel, zodCookieParse schema fuel input = .jsError stackOverflowError))
    ∧ (∀ input, cookieHeaderOf input = none →
        ∀ fuel, zodCookieParse schema (fuel + 1) input = parseAsync schema (.obj [])) := by
  have heq : ∀ input h, cookieHeaderOf input = some h → h ≠ "" → ∀ fuel,
      zodCookieParse schema (fuel + 1) input
        = zodCookieParse schema fuel (.header (some h)) := by
    intro input h hin hne fuel
    cases input with
    | request req =>
      simp only [cookieHeaderOf] at hin
      simp [zodCookieParse, hin, hne]
    | headers hdr =>
      simp only [cookieHeaderOf] at hin
      simp [zodCookieParse, hin, hne]
    | header s =>
      simp only [cookieHeaderOf] at hin
      simp [zodCookieParse, hin, hne]
  constructor
  · intro input h hin hne
    refine ⟨heq input h hin hne, ?_⟩
    intro fuel
    cases fuel with
    | zero => rfl
    | succ n =>
      rw [heq input h hin hne n]
      exact zodCookieParse_header_overflow schema h hne n
  · intro input hin fuel
    cases input with
    | request req =>
      simp only [cookieHeaderOf] at hin
      simp [zodCookieParse, hin]
    | headers hdr =>
      simp only [cookieHeaderOf] at hin
      simp [zodCookieParse, hin]
    | header s =>
      simp only [cookieHeaderOf] at hin
      simp [zodCookieParse, hin]

/-- Witness for C2: the wrapper evaluated at the failing header "a=b" (a
concrete stack budget) and at the terminating missing-header path. -/
theorem zodCookie_parse_self_recursion_witness :
    zodCookieParse zodUnknown 5 (.header (some "a=b")) = .jsError stackOverflowError
    ∧ zodCookieParse zodUnknown 1 (.header none) = .ok (.obj []) :=
  ⟨((zodCookie_parse_self_recursion zodUnknown).1 (.header (some "a=b")) "a=b" rfl
      (by decide)).2 5,
   ((zodCookie_parse_self_recursion zodUnknown).2 (.header none) rfl 0).trans rfl⟩

/-- Counterexample to claim C3 as stated: the invalid base64 string
"not base64!!" given to the base64-file schema does not surface as a schema
validation failure under the safe shape - the thrown decoding error escapes
safeParseAsync, so the promise rejects instead of resolving with a
failure-tagged result, and the with-default shape rejects instead of
yielding the default. -/
theorem base64File_safeParse_rejects_cex :
    safeParseAsync (zx.base64File ⟨none, none, none⟩) (.str "not base64!!")
      = .jsError .invalidCharacter
    ∧ safeParseAsync (zx.base64File ⟨none, none, none⟩) (.str "not base64!!") ≠ .ok .failure
    ∧ safeParseWithDefault (zx.base64File ⟨none, none, none⟩) (.str "not base64!!") (.str "d")
      ≠ .ok (.str "d") := by
  refine ⟨rfl, ?_, ?_⟩ <;> intro h <;> exact Outcome.noConfusion h

/-- Claim C3 (amended): for every string rejected by the base64/data-URI
decoding step of the base64-file schema, the thrown decoding error is turned
into the BadRequest condition by the throwing shape (whose catch-all catches
it), but the safe and with-default shapes propagate the thrown error - the
promise rejects - rather than returning a failure-tagged result or the
default. -/
theorem base64File_malformed_three_shapes (c : FileConstraints) (cfg : Config) (s : String)
    (d : Value) (e : JsError) (h : base64FilePreprocess (.str s) = .error e) :
    parseOrThrow cfg (zx.base64File c) (.str s) = .badRequest (throwBadRequest cfg)
    ∧ safeParseAsync (zx.base64File c) (.str s) = .jsError e
    ∧ safeParseWithDefault (zx.base64File c) (.str s) d = .jsError e := by
  refine ⟨?_, ?_, ?_⟩ <;>
    simp [parseOrThrow, safeParseAsync, safeParseWithDefault, zx.base64File, h, Outcome.then]

/-- Witness for amended C3 at the invalid string "not base64!!". -/
theorem base64File_malformed_three_shapes_witness :
    parseOrThrow defaultConfig (zx.base64File ⟨none, none, none⟩) (.str "not base64!!")
      = .badRequest (throwBadRequest defaultConfig) :=
  (base64File_malformed_three_shapes ⟨none, none, none⟩ defaultConfig "not base64!!" .null
    .invalidCharacter rfl).1

/-- Claim C4: for an action wrapped by zodAction with a body schema (the
params schema defaulting to zod.unknown) and a JSON request: if the schema
accepts the parsed body, the handler is invoked with the original argument
object augmented with parsedParams and parsedBody; if the schema rejects the
body, the wrapper throws the BadRequest condition and the result does not
depend on the handler, which is therefore never invoked. -/
theorem zodAction_body_validation (cfg : Config) (bodySchema : Schema) (args : ActionArgs)
    (raw : Value) (henc : getBodyEncoding args.request = .json)
    (hraw : args.request.jsonBody = .ok raw) :
    (∀ bv action, bodySchema raw = .success bv →
        zodAction cfg zodUnknown bodySchema action args = action ⟨args, args.params, bv⟩)
    ∧ (∀ action : AugmentedActionArgs → Outcome Value, bodySchema raw = .failure →
        zodAction cfg zodUnknown bodySchema action args = .badRequest (throwBadRequest cfg)) := by
  constructor
  · intro bv action hacc
    simp [zodAction, parseParams, parseOrThrow, zodUnknown, Outcome.then, parseBody, henc,
      parseJson, hraw, hacc]
  · intro action hrej
    simp [zodAction, parseParams, parseOrThrow, zodUnknown, Outcome.then, parseBody, henc,
      parseJson, hraw, hrej]

/-- Witness for C4: the name schema accepts body name = "a" (the handler sees
the validated body) and rejects body name = 5 (400 response). -/
theorem zodAction_body_validation_witness :
    zodAction defaultConfig zodUnknown nameStringSchema echoBodyAction ⟨reqJsonNameA, .obj []⟩
      = .ok (.obj [("name", .str "a")])
    ∧ zodAction defaultConfig zodUnknown nameStringSchema echoBodyAction ⟨reqJsonName5, .obj []⟩
      = .badRequest (throwBadRequest defaultConfig) :=
  ⟨by
    rw [(zodAction_body_validation defaultConfig nameStringSchema ⟨reqJsonNameA, .obj []⟩
          (.obj [("name", .str "a")]) rfl rfl).1 (.obj [("name", .str "a")]) echoBodyAction rfl]
    rfl,
   (zodAction_body_validation defaultConfig nameStringSchema ⟨reqJsonName5, .obj []⟩
      (.obj [("name", .num 5)]) rfl rfl).2 echoBodyAction rfl⟩

/-- Claim C7: for value at least 0 and unit among B, KB, MB, GB, TB the
converter returns value * 1024^k with k = 0..4; it is monotonic in the value,
consecutive units scale by 1024, and any other unit tag yields the invalid
unit error. -/
theorem convertToBytes_spec (v w : Int) (u : String) (_hv : 0 ≤ v) :
    (convertToBytes ⟨v, "B"⟩ = .ok (v * 1024 ^ 0)
      ∧ convertToBytes ⟨v, "KB"⟩ = .ok (v * 1024 ^ 1)
      ∧ convertToBytes ⟨v, "MB"⟩ = .ok (v * 1024 ^ 2)
      ∧ convertToBytes ⟨v, "GB"⟩ = .ok (v * 1024 ^ 3)
      ∧ convertToBytes ⟨v, "TB"⟩ = .ok (v * 1024 ^ 4))
    ∧ (v ≤ w → ∀ b b', convertToBytes ⟨v, u⟩ = .ok b → convertToBytes ⟨w, u⟩ = .ok b' →
        b ≤ b')
    ∧ (convertToBytes ⟨v, "KB"⟩ = (convertToBytes ⟨v, "B"⟩).map (fun b => 1024 * b)
      ∧ convertToBytes ⟨v, "MB"⟩ = (convertToBytes ⟨v, "KB"⟩).map (fun b => 1024 * b)
      ∧ convertToBytes ⟨v, "GB"⟩ = (convertToBytes ⟨v, "MB"⟩).map (fun b => 1024 * b)
      ∧ convertToBytes ⟨v, "TB"⟩ = (convertToBytes ⟨v, "GB"⟩).map (fun b => 1024 * b))
    ∧ (u ∉ (["B", "KB", "MB", "GB", "TB"] : List String) →
        convertToBytes ⟨v, u⟩ = .error "Invalid file size unit.") := by
  refine ⟨?_, ?_, ?_, ?_⟩
  · refine ⟨?_, ?_, ?_, ?_, ?_⟩ <;> simp [convertToBytes] <;> ring
  · intro hvw b b' hb hb'
    by_cases hB : u = "B"
    · subst hB
      simp [convertToBytes] at hb hb'
      omega
    · by_cases hKB : u = "KB"
      · subst hKB
        simp [convertToBytes] at hb hb'
        omega
      · by_cases hMB : u = "MB"
        · subst hMB
          simp [convertToBytes] at hb hb'
          omega
        · by_cases hGB : u = "GB"
          · subst hGB
            simp [convertToBytes] at hb hb'
            omega
          · by_cases hTB : u = "TB"
            · subst hTB
              simp [convertToBytes] at hb hb'
              omega
            · simp [convertToBytes, hB, hKB, hMB, hGB, hTB] at hb
  · refine ⟨?_, ?_, ?_, ?_⟩ <;> simp [convertToBytes, Except.map] <;> ring
  · intro hu
    simp only [List.mem_cons, List.not_mem_nil, or_false, not_or] at hu
    obtain ⟨hB, hKB, hMB, hGB, hTB⟩ := hu
    simp [convertToBytes, hB, hKB, hMB, hGB, hTB]

/-- Witness for C7 at concrete values and a concrete invalid unit tag. -/
theorem convertToBytes_spec_witness :
    convertToBytes ⟨2, "KB"⟩ = .ok 2048
    ∧ convertToBytes ⟨3, "PB"⟩ = .error "Invalid file size unit." := by
  have h := convertToBytes_spec 2 3 "PB" (by norm_num)
  exact ⟨by rw [h.1.2.1]; rfl, h.2.2.2 (by decide)⟩

/-- Claim C8: a throwing-shape parse whose schema rejects the input throws,
under the default configuration, the BadRequest condition with HTTP status
400, status text "Bad Request", and body equal to the default identity
formatter applied to the default message "Bad Request". -/
theorem parseOrThrow_default_badRequest (schema : Schema) (v : Value)
    (h : schema v = .failure) :
    parseOrThrow defaultConfig schema v
      = .badRequest ⟨400, "Bad Request", .str "Bad Request"⟩ := by
  simp [parseOrThrow, h, throwBadRequest, defaultConfig]

/-- Witness for C8 at the always-failing schema. -/
theorem parseOrThrow_default_badRequest_witness :
    parseOrThrow defaultConfig alwaysFail .null
      = .badRequest ⟨400, "Bad Request", .str "Bad Request"⟩ :=
  parseOrThrow_default_badRequest alwaysFail .null rfl

/-- Claim C9: the file schema's byte-size bounds are inclusive - with
maximumSize one MB a 1048576-byte file is accepted and a 1048577-byte file
rejected; a declared MIME type must equal the single constraint string (when
non-empty: JavaScript truthiness skips an empty constraint) or belong to the
constraint list; absent constraints impose no limit. -/
theorem file_schema_constraints (f : FileObj) :
    zx.file ⟨none, some ⟨1, "MB"⟩, none⟩ (.file ⟨f.name, f.type, 1048576⟩)
      = .success (.file ⟨f.name, f.type, 1048576⟩)
    ∧ zx.file ⟨none, some ⟨1, "MB"⟩, none⟩ (.file ⟨f.name, f.type, 1048577⟩) = .failure
    ∧ zx.file ⟨none, none, none⟩ (.file f) = .success (.file f)
    ∧ (∀ m : String, f.type = m →
        zx.file ⟨none, none, some (.inl m)⟩ (.file f) = .success (.file f))
    ∧ (∀ m : String, m ≠ "" → f.type ≠ m →
        zx.file ⟨none, none, some (.inl m)⟩ (.file f) = .failure)
    ∧ (∀ ms : List String, f.type ∈ ms →
        zx.file ⟨none, none, some (.inr ms)⟩ (.file f) = .success (.file f))
    ∧ (∀ ms : List String, f.type ∉ ms →
        zx.file ⟨none, none, some (.inr ms)⟩ (.file f) = .failure) := by
  refine ⟨rfl, rfl, rfl, ?_, ?_, ?_, ?_⟩
  · intro m hm
    subst hm
    by_cases h0 : f.type = "" <;> simp [zx.file, fileCheck, h0] <;> rfl
  · intro m hne hty
    simp [zx.file, fileCheck, hne, hty]
    rfl
  · intro ms hin
    simp [zx.file, fileCheck, hin]
    rfl
  · intro ms hout
    simp [zx.file, fileCheck, hout]
    rfl

/-- Witness for C9 at a concrete png file. -/
theorem file_schema_constraints_witness :
    zx.file ⟨none, some ⟨1, "MB"⟩, none⟩ (.file ⟨"f", "image/png", 1048576⟩)
      = .success (.file ⟨"f", "image/png", 1048576⟩)
    ∧ zx.file ⟨none, none, some (.inl "image/png")⟩ (.file ⟨"f", "image/png", 7⟩)
      = .success (.file ⟨"f", "image/png", 7⟩)
    ∧ zx.file ⟨none, none, some (.inl "text/css")⟩ (.file ⟨"f", "image/png", 7⟩) = .failure :=
  ⟨(file_schema_constraints ⟨"f", "image/png", 1048576⟩).1,
   (file_schema_constraints ⟨"f", "image/png", 7⟩).2.2.2.1 "image/png" rfl,
   (file_schema_constraints ⟨"f", "image/png", 7⟩).2.2.2.2.1 "text/css" (by decide) (by decide)⟩

/-- Claim C10: a URLSearchParams argument to the parseQuery family is handed
to the schema as the raw URLSearchParams object with no multi-value folding,
while a Request argument has its query pairs folded first; for the same
underlying pairs the two validation inputs are different values. -/
theorem parseQuery_raw_vs_folded (cfg : Config) (schema : Schema)
    (sp : List (String × String)) (req : Request) (d : Value) :
    parseQuery cfg (.searchParams sp) schema = parseOrThrow cfg schema (.searchParams sp)
    ∧ parseQuerySafe (.searchParams sp) schema = safeParseAsync schema (.searchParams sp)
    ∧ parseQueryWithDefault (.searchParams sp) schema d
      = safeParseWithDefault schema (.searchParams sp) d
    ∧ parseQuery cfg (.request req) schema
      = parseOrThrow cfg schema (foldedToValue (searchParamsToObject req.queryPairs))
    ∧ parseQuerySafe (.request req) schema
      = safeParseAsync schema (foldedToValue (searchParamsToObject req.queryPairs))
    ∧ parseQueryWithDefault (.request req) schema d
      = safeParseWithDefault schema (foldedToValue (searchParamsToObject req.queryPairs)) d
    ∧ Value.searchParams sp ≠ foldedToValue (searchParamsToObject sp) := by
  refine ⟨rfl, rfl, rfl, rfl, rfl, rfl, ?_⟩
  intro h
  exact Value.noConfusion h

end RemixZod
